import Mathlib

/-!
Shallow embedding of the tool registry and dispatch core of the MCP server
template (src/src/tools/tool-registry.js), together with the built-in item
handlers it registers.  Handlers are modelled as functions returning
`Except String` (a thrown JS `Error` with its message becomes `.error msg`).
The JS `Map` backing the registry is modelled as an association list with
`Map.set` / `Map.get` semantics (`mapSet` replaces in place, `mapGet` finds
the entry).  `executeTool` additionally returns the list of handler names it
invoked, so that claims of the form "no handler is invoked" are statable.
-/

namespace MCP

/-- Argument-shape contract (`inputSchema`).  The core treats it as opaque
declarative data; we model just enough structure to express the default
`\x7b type: 'object', properties: \x7b\x7d \x7d` that `registerTool` supplies
when a descriptor omits its schema. -/
structure InputSchema where
  schemaType : String
  props : List String
deriving DecidableEq, Repr

/-- Default schema `\x7b type: 'object', properties: \x7b\x7d \x7d` used by
`registerTool` when `inputSchema` is absent. -/
def defaultSchema : InputSchema := ⟨"object", []⟩

/-- Registered tool entry: the value stored in the registry map by
`registerTool` (tool-registry.js lines 294-302).  All fields are present
after normalization. -/
structure Tool (α β : Type) where
  name : String
  description : String
  inputSchema : InputSchema
  handler : α → Except String β

/-- Raw descriptor passed to `registerTool`: in JS any field may be absent
(or, for `name`, the empty string, which is equally falsy). -/
structure ToolInput (α β : Type) where
  name : Option String
  description : Option String
  inputSchema : Option InputSchema
  handler : Option (α → Except String β)

/-- Registry state: `this.tools`, a JS `Map` from tool name to entry,
modelled as an association list in insertion order. -/
abbrev Registry (α β : Type) : Type := List (String × Tool α β)

/-- JS `Map.get`: the value stored under `k`, if any. -/
def mapGet {α β : Type} (m : Registry α β) (k : String) : Option (Tool α β) :=
  match m with
  | [] => none
  | (k1, v1) :: rest => if k1 = k then some v1 else mapGet rest k

/-- JS `Map.set`: replace the entry under `k` in place if present, else
append a new entry. -/
def mapSet {α β : Type} (m : Registry α β) (k : String) (v : Tool α β) :
    Registry α β :=
  match m with
  | [] => [(k, v)]
  | (k1, v1) :: rest => if k1 = k then (k, v) :: rest else (k1, v1) :: mapSet rest k v

/-- JS truthiness test of `!tool.name`: true when `name` is absent or the
empty string. -/
def nameFalsy {α β : Type} (t : ToolInput α β) : Bool :=
  match t.name with
  | none => true
  | some s => s == ""

/-- JS truthiness test of `!tool.handler`: true when `handler` is absent. -/
def handlerFalsy {α β : Type} (t : ToolInput α β) : Bool :=
  t.handler.isNone

/-- ToolRegistry.registerTool (tool-registry.js lines 289-303): throws when
`!tool.name || !tool.handler`, otherwise stores the normalized entry under
`tool.name`, defaulting `description` to the empty string and `inputSchema`
to `defaultSchema`. -/
def registerTool {α β : Type} (reg : Registry α β) (tool : ToolInput α β) :
    Except String (Registry α β) :=
  if nameFalsy tool || handlerFalsy tool then
    .error "Tool must have a name and handler"
  else
    match tool.name, tool.handler with
    | some n, some h =>
        .ok (mapSet reg n
          ⟨n, tool.description.getD "", tool.inputSchema.getD defaultSchema, h⟩)
    | _, _ => .error "Tool must have a name and handler"

/-- Snapshot element returned by `getTools`: name, description, inputSchema
(handler excluded). -/
structure ToolInfo where
  name : String
  description : String
  inputSchema : InputSchema
deriving DecidableEq, Repr

/-- ToolRegistry.getTools (tool-registry.js lines 308-314): the map values in
insertion order, projected to `\x7b name, description, inputSchema \x7d`. -/
def getTools {α β : Type} (reg : Registry α β) : List ToolInfo :=
  reg.map (fun p => ⟨p.2.name, p.2.description, p.2.inputSchema⟩)

/-- ToolRegistry.hasTool (tool-registry.js lines 336-338): JS `Map.has`. -/
def hasTool {α β : Type} (reg : Registry α β) (name : String) : Bool :=
  (mapGet reg name).isSome

/-- ToolRegistry.executeTool (tool-registry.js lines 319-331).  Looks the
name up; throws `Tool not found` when absent; otherwise invokes the handler
inside try/catch, rethrowing any handler failure as the single normalized
`execution failed` error carrying the tool name and the original message.
The second component records which handlers were invoked during the call
(observability instrumentation; the source invokes `tool.handler` exactly in
the `some` branch). -/
def executeTool {α β : Type} (reg : Registry α β) (name : String) (args : α) :
    Except String β × List String :=
  match mapGet reg name with
  | none => (.error ("Tool \x27" ++ name ++ "\x27 not found"), [])
  | some tool =>
      match tool.handler args with
      | .ok r => (.ok r, [name])
      | .error msg =>
          (.error ("Tool \x27" ++ name ++ "\x27 execution failed: " ++ msg), [name])

/-- Candidate file seen by the custom-tools directory scan.  `file` is the
filename as enumerated; `imported` is the outcome of `await import(...)`:
`.error msg` when the import throws, `.ok none` when the module has no
(truthy) default export, `.ok (some t)` when `tool.default` is `t`. -/
structure ModuleFile (α β : Type) where
  file : String
  imported : Except String (Option (ToolInput α β))

/-- Body of the per-file loop of ToolRegistry.loadCustomTools
(tool-registry.js lines 271-283): one try/catch iteration, threading the
registry and the accumulated diagnostic log (`console.error` lines). -/
def loadStep {α β : Type} (acc : Registry α β × List String) (f : ModuleFile α β) :
    Registry α β × List String :=
  match f.imported with
  | .error msg =>
      (acc.1, acc.2 ++ ["Failed to load custom tool " ++ f.file ++ ": " ++ msg])
  | .ok none => acc
  | .ok (some t) =>
      match registerTool acc.1 t with
      | .ok reg1 => (reg1, acc.2 ++ ["Loaded custom tool from: " ++ f.file])
      | .error msg =>
          (acc.1, acc.2 ++ ["Failed to load custom tool " ++ f.file ++ ": " ++ msg])

/-- Extension check `f.endsWith('.js')`, modelled over the character list
(the library `String.endsWith` does not reduce in the kernel). -/
def strEndsWith (s post : String) : Bool :=
  post.data.isSuffixOf s.data

/-- ToolRegistry.loadCustomTools (tool-registry.js lines 258-284): restrict
the directory listing to `.js` files and process them in listing order.
Returns the final registry and the diagnostics emitted, in order. -/
def loadCustomTools {α β : Type} (reg : Registry α β) (files : List (ModuleFile α β)) :
    Registry α β × List String :=
  (files.filter (fun f => strEndsWith f.file ".js")).foldl loadStep (reg, [])

/-- Sequence of registrations keeping only the successful ones: each input is
passed to `registerTool`, and a failing registration leaves the registry
unchanged (the failure only aborts that one registration). -/
def applyRegs {α β : Type} (reg : Registry α β) (ds : List (ToolInput α β)) :
    Registry α β :=
  ds.foldl
    (fun r d =>
      match registerTool r d with
      | .ok r1 => r1
      | .error _ => r)
    reg

/-! ### Backing item store and the built-in handlers

The built-in handlers read and write a single JSON document
`items.json` holding `\x7b items: [...] \x7d`.  The store is `none` when the
file does not exist.  The millisecond clock (`Date.now()`) and the ISO
timestamp (`new Date().toISOString()`) are explicit parameters. -/

/-- Metadata value attached to an item; `empty` models the JS `\x7b\x7d`
default, `tagged` any other metadata object. -/
inductive MetaVal
  | empty
  | tagged (s : String)
deriving DecidableEq, Repr

/-- Stored item record `\x7b id, name, description, metadata, createdAt \x7d`. -/
structure Item where
  id : String
  name : String
  description : String
  metadata : MetaVal
  createdAt : String
deriving DecidableEq, Repr

/-- Backing document `\x7b items: [...] \x7d`. -/
structure ItemsDoc where
  items : List Item
deriving DecidableEq, Repr

/-- State of `items.json`: `none` when the file does not exist. -/
abbrev Store : Type := Option ItemsDoc

/-- Arguments of `list_items`: both optional. -/
structure ListArgs where
  filter : Option String
  limit : Option Nat

/-- Result of `list_items`. -/
structure ListResult where
  items : List Item
  count : Nat
deriving DecidableEq, Repr

/-- JS truthiness of `args.filter`: a string is truthy iff non-empty. -/
def filterTruthy (f : Option String) : Bool :=
  match f with
  | none => false
  | some s => !(s == "")

/-- JS truthiness of `args.limit`: a number is truthy iff nonzero. -/
def limitTruthy (l : Option Nat) : Bool :=
  match l with
  | none => false
  | some n => !(n == 0)

/-- Built-in `list_items` handler (tool-registry.js lines 56-79).  The
case-insensitive regex test `new RegExp(args.filter, 'i').test` is an
external library function, passed in as `regexTest pattern text`. -/
def listItemsHandler (regexTest : String → String → Bool) (store : Store)
    (args : ListArgs) : ListResult :=
  match store with
  | none => ⟨[], 0⟩
  | some data =>
      let items0 := data.items
      let items1 :=
        if filterTruthy args.filter then
          items0.filter (fun item =>
            regexTest (args.filter.getD "") item.name ||
            regexTest (args.filter.getD "") item.description)
        else items0
      let items2 :=
        if limitTruthy args.limit then items1.take (args.limit.getD 0) else items1
      ⟨items2, items2.length⟩

/-- Arguments of `add_item`: `name` and `description` required, `metadata`
optional (defaulted to `\x7b\x7d`). -/
structure AddArgs where
  name : String
  description : String
  metadata : Option MetaVal

/-- Result of `add_item`. -/
structure AddResult where
  success : Bool
  item : Item
  message : String
deriving DecidableEq, Repr

/-- Built-in `add_item` handler (tool-registry.js lines 103-132): load the
document (missing file reads as `\x7b items: [] \x7d`), build the new item
with `id = Date.now().toString()` and `createdAt = new Date().toISOString()`,
push it, write the document back, and return the success envelope. -/
def addItemHandler (now : Nat) (isoNow : String) (store : Store)
    (args : AddArgs) : Store × AddResult :=
  let data :=
    match store with
    | none => ItemsDoc.mk []
    | some d => d
  let newItem : Item :=
    ⟨Nat.repr now, args.name, args.description, args.metadata.getD .empty, isoNow⟩
  (some (ItemsDoc.mk (data.items ++ [newItem])),
   ⟨true, newItem, "Item \x27" ++ args.name ++ "\x27 added successfully"⟩)

/-- Arguments of `remove_item`. -/
structure RemoveArgs where
  id : String

/-- Result of `remove_item`. -/
structure RemoveResult where
  success : Bool
  message : String
deriving DecidableEq, Repr

/-- Built-in `remove_item` handler (tool-registry.js lines 148-172): throws
`No items found` when the file is missing; filters out items whose id equals
`args.id`; throws the `not found` error when nothing was removed; otherwise
writes the filtered document back and returns the success envelope. -/
def removeItemHandler (store : Store) (args : RemoveArgs) :
    Except String (Store × RemoveResult) :=
  match store with
  | none => .error "No items found"
  | some data =>
      let initialLength := data.items.length
      let remaining := data.items.filter (fun item => !(item.id == args.id))
      if remaining.length = initialLength then
        .error ("Item with ID \x27" ++ args.id ++ "\x27 not found")
      else
        .ok (some (ItemsDoc.mk remaining),
          ⟨true, "Item \x27" ++ args.id ++ "\x27 removed successfully"⟩)

/-! ### Map lemmas and sample data shared by several claims -/

theorem mapGet_mapSet_self {α β : Type} (m : Registry α β) (k : String) (v : Tool α β) :
    mapGet (mapSet m k v) k = some v := by
  induction m with
  | nil => simp [mapSet, mapGet]
  | cons p rest ih =>
      obtain ⟨k1, v1⟩ := p
      by_cases h : k1 = k
      · simp [mapSet, mapGet, h]
      · simp [mapSet, mapGet, h, ih]

theorem mapGet_mapSet_ne {α β : Type} (m : Registry α β) (k j : String) (v : Tool α β)
    (h : j ≠ k) : mapGet (mapSet m k v) j = mapGet m j := by
  have hkj : ¬k = j := fun hkj => h hkj.symm
  induction m with
  | nil => simp [mapSet, mapGet, hkj]
  | cons p rest ih =>
      obtain ⟨k1, v1⟩ := p
      by_cases h1 : k1 = k
      · subst h1
        simp [mapSet, mapGet, hkj]
      · simp [mapSet, mapGet, h1, ih]

/-- Sample handler that succeeds. -/
def natHandlerOk : Nat → Except String Nat := fun n => .ok n

/-- Sample handler that fails with message `bad`. -/
def natHandlerFail : Nat → Except String Nat := fun _ => .error "bad"

/-- Sample registered entry whose handler always fails. -/
def sampleTool : Tool Nat Nat := ⟨"boom", "", defaultSchema, natHandlerFail⟩

/-- Sample registry holding only `sampleTool`. -/
def sampleReg : Registry Nat Nat := [("boom", sampleTool)]

/-! ### Claims -/

/-- C1: when the resolved handler fails, `executeTool` yields the single
normalized execution-failed error, whose message carries the operation name
and contains the original failure message as a substring; the handler's raw
failure never escapes the dispatcher (the call returns exactly this
normalized error value). -/
theorem executeTool_handler_failure_normalized {α β : Type} (reg : Registry α β)
    (name : String) (args : α) (tool : Tool α β) (msg : String)
    (hlook : mapGet reg name = some tool)
    (hfail : tool.handler args = .error msg) :
    executeTool reg name args =
      (.error ("Tool \x27" ++ name ++ "\x27 execution failed: " ++ msg), [name]) ∧
    (∃ p q, ("Tool \x27" ++ name ++ "\x27 execution failed: " ++ msg : String) =
      p ++ name ++ q) ∧
    (∃ p q, ("Tool \x27" ++ name ++ "\x27 execution failed: " ++ msg : String) =
      p ++ msg ++ q) := by
  refine ⟨by simp [executeTool, hlook, hfail], ?_, ?_⟩
  · refine ⟨"Tool \x27", "\x27 execution failed: " ++ msg, ?_⟩
    simp [String.append_assoc]
  · refine ⟨"Tool \x27" ++ name ++ "\x27 execution failed: ", "", ?_⟩
    simp [String.append_empty]

/-- C1 witness: at the concrete sample registry, executing `boom` yields
exactly the normalized error and invokes exactly that handler. -/
theorem executeTool_handler_failure_normalized_witness :
    executeTool sampleReg "boom" 0 =
      (.error ("Tool \x27" ++ "boom" ++ "\x27 execution failed: " ++ "bad"), ["boom"]) :=
  (executeTool_handler_failure_normalized sampleReg "boom" 0 sampleTool "bad"
    rfl rfl).1

/-- C2: executing a name with no registered entry yields the not-found error
as a reported failure value, and invokes no handler at all (empty invocation
trace). -/
theorem executeTool_not_found {α β : Type} (reg : Registry α β) (name : String)
    (args : α) (habs : mapGet reg name = none) :
    executeTool reg name args =
      (.error ("Tool \x27" ++ name ++ "\x27 not found"), []) := by
  simp [executeTool, habs]

/-- C2 witness: the sample registry has no `nope` entry, and executing it
reports not-found with an empty invocation trace. -/
theorem executeTool_not_found_witness :
    executeTool sampleReg "nope" 0 =
      (.error ("Tool \x27" ++ "nope" ++ "\x27 not found"), []) :=
  executeTool_not_found sampleReg "nope" 0 rfl

/-- Sample invalid descriptor: empty name. -/
def badInput : ToolInput Nat Nat := ⟨some "", some "d", none, some natHandlerOk⟩

/-- Sample valid descriptor registering `alpha`. -/
def goodInput : ToolInput Nat Nat :=
  ⟨some "alpha", some "first", none, some natHandlerOk⟩

/-- Normalized entry produced by registering `goodInput`. -/
def alphaTool : Tool Nat Nat := ⟨"alpha", "first", defaultSchema, natHandlerOk⟩

/-- Registry after registering `goodInput` on top of `sampleReg`. -/
def regTwo : Registry Nat Nat := [("boom", sampleTool), ("alpha", alphaTool)]

/-- C3: `registerTool` fails with the invalid-descriptor error exactly when
the name is absent or empty or the handler is absent; on success it stores
the normalized entry under the descriptor name and leaves every other key
unchanged. -/
theorem registerTool_invalid_iff {α β : Type} (reg : Registry α β) (d : ToolInput α β) :
    ((registerTool reg d = .error "Tool must have a name and handler") ↔
      (nameFalsy d = true ∨ handlerFalsy d = true)) ∧
    (∀ reg1, registerTool reg d = .ok reg1 →
      ∃ n h, d.name = some n ∧ d.handler = some h ∧
        mapGet reg1 n =
          some ⟨n, d.description.getD "", d.inputSchema.getD defaultSchema, h⟩ ∧
        ∀ k, k ≠ n → mapGet reg1 k = mapGet reg k) := by
  rcases hname : d.name with _ | n
  · constructor
    · simp [registerTool, nameFalsy, hname]
    · intro reg1 heq
      simp [registerTool, nameFalsy, hname] at heq
  · rcases hhand : d.handler with _ | h
    · constructor
      · simp [registerTool, nameFalsy, handlerFalsy, hname, hhand]
      · intro reg1 heq
        simp [registerTool, nameFalsy, handlerFalsy, hname, hhand] at heq
    · by_cases hn : n = ""
      · constructor
        · simp [registerTool, nameFalsy, hname, hn]
        · intro reg1 heq
          simp [registerTool, nameFalsy, hname, hn] at heq
      · constructor
        · simp [registerTool, nameFalsy, handlerFalsy, hname, hhand, hn]
        · intro reg1 heq
          simp [registerTool, nameFalsy, handlerFalsy, hname, hhand, hn] at heq
          refine ⟨n, h, rfl, rfl, ?_, ?_⟩
          · rw [← heq]
            exact mapGet_mapSet_self reg n _
          · intro k hk
            rw [← heq]
            exact mapGet_mapSet_ne reg n k _ hk

/-- C3 witness: registering the empty-named descriptor fails with the
invalid-descriptor error, and registering the valid `goodInput` stores it
under `alpha` while leaving the other key intact. -/
theorem registerTool_invalid_iff_witness :
    (registerTool sampleReg badInput = .error "Tool must have a name and handler") ∧
    (∃ n h, goodInput.name = some n ∧ goodInput.handler = some h ∧
      mapGet regTwo n =
        some ⟨n, goodInput.description.getD "",
          goodInput.inputSchema.getD defaultSchema, h⟩ ∧
      ∀ k, k ≠ n → mapGet regTwo k = mapGet sampleReg k) :=
  ⟨(registerTool_invalid_iff sampleReg badInput).1.mpr (Or.inl (by decide)),
   (registerTool_invalid_iff sampleReg goodInput).2 regTwo rfl⟩

/-- C4: registering a descriptor with non-empty name, description, schema
and handler succeeds, and looking the name up afterwards returns exactly
that descriptor (same name, description, argument contract, and the same
handler). -/
theorem register_then_lookup {α β : Type} (reg : Registry α β) (n desc : String)
    (sch : InputSchema) (h : α → Except String β) (hn : ¬n = "") :
    ∃ reg1, registerTool reg ⟨some n, some desc, some sch, some h⟩ = .ok reg1 ∧
      mapGet reg1 n = some ⟨n, desc, sch, h⟩ := by
  refine ⟨mapSet reg n ⟨n, desc, sch, h⟩, ?_, mapGet_mapSet_self reg n _⟩
  simp [registerTool, nameFalsy, handlerFalsy, hn]

/-- C4 witness: registering `beta` on the sample registry and looking it up
returns the registered descriptor. -/
theorem register_then_lookup_witness :
    ∃ reg1,
      registerTool sampleReg ⟨some "beta", some "snd", some defaultSchema, some natHandlerOk⟩ =
        .ok reg1 ∧
      mapGet reg1 "beta" = some ⟨"beta", "snd", defaultSchema, natHandlerOk⟩ :=
  register_then_lookup sampleReg "beta" "snd" defaultSchema natHandlerOk (by decide)

/-! ### Registry invariants: unique keys, entry name matches its key -/

/-- Keys of the registry map are pairwise distinct (a JS `Map` invariant). -/
def keysNodup {α β : Type} (reg : Registry α β) : Prop :=
  (reg.map Prod.fst).Nodup

/-- Every stored entry's `name` field equals its map key (established by
`registerTool`, which stores under `tool.name`). -/
def namesMatch {α β : Type} (reg : Registry α β) : Prop :=
  ∀ p ∈ reg, p.2.name = p.1

theorem mem_mapSet {α β : Type} (m : Registry α β) (k : String) (v : Tool α β)
    (p : String × Tool α β) (hp : p ∈ mapSet m k v) : p ∈ m ∨ p = (k, v) := by
  induction m with
  | nil =>
      simp [mapSet] at hp
      exact Or.inr hp
  | cons q rest ih =>
      obtain ⟨k1, v1⟩ := q
      by_cases h : k1 = k
      · simp [mapSet, h] at hp
        rcases hp with hp | hp
        · exact Or.inr (by simp [hp])
        · exact Or.inl (List.mem_cons_of_mem _ hp)
      · simp [mapSet, h] at hp
        rcases hp with hp | hp
        · exact Or.inl (by simp [hp])
        · rcases ih hp with h1 | h1
          · exact Or.inl (List.mem_cons_of_mem _ h1)
          · exact Or.inr h1

theorem keys_mapSet {α β : Type} (m : Registry α β) (k : String) (v : Tool α β) :
    (mapSet m k v).map Prod.fst =
      if k ∈ m.map Prod.fst then m.map Prod.fst else m.map Prod.fst ++ [k] := by
  induction m with
  | nil => simp [mapSet]
  | cons q rest ih =>
      obtain ⟨k1, v1⟩ := q
      by_cases h : k1 = k
      · subst h
        simp [mapSet]
      · have hne : ¬k = k1 := fun he => h he.symm
        by_cases h2 : k ∈ rest.map Prod.fst <;>
          simp [mapSet, h, ih, hne, h2]

theorem keysNodup_mapSet {α β : Type} (m : Registry α β) (k : String) (v : Tool α β)
    (hm : keysNodup m) : keysNodup (mapSet m k v) := by
  unfold keysNodup at *
  rw [keys_mapSet]
  by_cases h : k ∈ m.map Prod.fst
  · simp [h, hm]
  · simp [List.nodup_append, h, hm]

theorem self_mem_keys_mapSet {α β : Type} (m : Registry α β) (k : String) (v : Tool α β) :
    k ∈ (mapSet m k v).map Prod.fst := by
  rw [keys_mapSet]
  by_cases h : k ∈ m.map Prod.fst <;> simp [h]

theorem namesMatch_mapSet {α β : Type} (m : Registry α β) (k : String) (v : Tool α β)
    (hm : namesMatch m) (hv : v.name = k) : namesMatch (mapSet m k v) := by
  intro p hp
  rcases mem_mapSet m k v p hp with h | h
  · exact hm p h
  · subst h
    exact hv

/-- Characterization of a successful `registerTool`: the descriptor has a
non-empty name and a handler, and the result is exactly the in-place map
update with the normalized entry. -/
theorem registerTool_ok_char {α β : Type} (reg : Registry α β) (d : ToolInput α β)
    (reg1 : Registry α β) (heq : registerTool reg d = .ok reg1) :
    ∃ n h, d.name = some n ∧ d.handler = some h ∧ ¬n = "" ∧
      reg1 = mapSet reg n
        ⟨n, d.description.getD "", d.inputSchema.getD defaultSchema, h⟩ := by
  rcases hname : d.name with _ | n
  · simp [registerTool, nameFalsy, hname] at heq
  · rcases hhand : d.handler with _ | h
    · simp [registerTool, nameFalsy, handlerFalsy, hname, hhand] at heq
    · by_cases hn : n = ""
      · simp [registerTool, nameFalsy, hname, hn] at heq
      · simp [registerTool, nameFalsy, handlerFalsy, hname, hhand, hn] at heq
        exact ⟨n, h, rfl, rfl, hn, heq.symm⟩

theorem countP_beq_of_nodup (l : List String) (n : String) (hnd : l.Nodup)
    (hmem : n ∈ l) : l.countP (fun k => k == n) = 1 := by
  induction l with
  | nil => simp at hmem
  | cons a rest ih =>
      rw [List.countP_cons]
      rcases List.mem_cons.mp hmem with h | h
      · subst h
        have hz : rest.countP (fun k => k == n) = 0 := by
          rw [List.countP_eq_zero]
          intro b hb
          have hbn : ¬b = n := fun hbn => (List.nodup_cons.mp hnd).1 (hbn ▸ hb)
          simp [hbn]
        simp [hz]
      · have hna : ¬a = n := fun hna => (List.nodup_cons.mp hnd).1 (hna ▸ h)
        have := ih (List.nodup_cons.mp hnd).2 h
        simp [this, hna]

/-- With unique keys and key-consistent names, the enumeration contains
exactly one element named `n` whenever `n` is a key. -/
theorem countP_getTools_eq_one {α β : Type} (reg : Registry α β) (hnd : keysNodup reg)
    (hnm : namesMatch reg) (n : String) (hmem : n ∈ reg.map Prod.fst) :
    List.countP (fun i => i.name == n) (getTools reg) = 1 := by
  unfold getTools
  rw [List.countP_map]
  have h1 : List.countP
      ((fun i : ToolInfo => i.name == n) ∘
        (fun p : String × Tool α β => ⟨p.2.name, p.2.description, p.2.inputSchema⟩)) reg =
      List.countP ((fun k => k == n) ∘ Prod.fst) reg := by
    apply List.countP_congr
    intro p hp
    simp [Function.comp, hnm p hp]
  rw [h1, ← List.countP_map]
  exact countP_beq_of_nodup (reg.map Prod.fst) n hnd hmem

/-- Diagnostics accumulated so far are only appended to by a load step. -/
theorem loadStep_diag_shift {α β : Type} (reg : Registry α β) (ds : List String)
    (f : ModuleFile α β) :
    loadStep (reg, ds) f = ((loadStep (reg, []) f).1, ds ++ (loadStep (reg, []) f).2) := by
  cases himp : f.imported with
  | error msg => simp [loadStep, himp]
  | ok o =>
      cases o with
      | none => simp [loadStep, himp]
      | some t => cases hreg : registerTool reg t <;> simp [loadStep, himp, hreg]

theorem foldl_loadStep_shift {α β : Type} (files : List (ModuleFile α β))
    (reg : Registry α β) (ds : List String) :
    (files.foldl loadStep (reg, ds)).1 = (files.foldl loadStep (reg, [])).1 ∧
    (files.foldl loadStep (reg, ds)).2 = ds ++ (files.foldl loadStep (reg, [])).2 := by
  induction files generalizing reg ds with
  | nil => simp
  | cons f rest ih =>
      rcases hp : loadStep (reg, ([] : List String)) f with ⟨A, B⟩
      have hshift := loadStep_diag_shift reg ds f
      rw [hp] at hshift
      simp only [List.foldl_cons, hshift, hp]
      obtain ⟨ha1, ha2⟩ := ih A (ds ++ B)
      obtain ⟨hb1, hb2⟩ := ih A B
      refine ⟨ha1.trans hb1.symm, ?_⟩
      rw [ha2, hb2, List.append_assoc]

/-- Processing of the directory listing is sequential: the files before a
split point are fully processed before the files after it, with diagnostics
concatenated in that order. -/
theorem loadCustomTools_append {α β : Type} (reg : Registry α β)
    (xs ys : List (ModuleFile α β)) :
    loadCustomTools reg (xs ++ ys) =
      ((loadCustomTools (loadCustomTools reg xs).1 ys).1,
       (loadCustomTools reg xs).2 ++ (loadCustomTools (loadCustomTools reg xs).1 ys).2) := by
  unfold loadCustomTools
  rw [List.filter_append, List.foldl_append]
  rcases hp : (xs.filter fun f => strEndsWith f.file ".js").foldl loadStep
      (reg, ([] : List String)) with ⟨R, D⟩
  obtain ⟨h1, h2⟩ := foldl_loadStep_shift
    (ys.filter fun f => strEndsWith f.file ".js") R D
  simp only [hp]
  exact Prod.ext h1 h2

/-- C5: the loader processes the directory listing sequentially in listing
order (so an alphabetical scan loads alphabetically), and last registration
wins: after two successful registrations under the same name, lookup returns
the normalization of the second descriptor and the enumeration contains
exactly one entry for that name. -/
theorem loadOrder_and_lastWins {α β : Type} :
    (∀ (reg : Registry α β) (xs ys : List (ModuleFile α β)),
      loadCustomTools reg (xs ++ ys) =
        ((loadCustomTools (loadCustomTools reg xs).1 ys).1,
         (loadCustomTools reg xs).2 ++
           (loadCustomTools (loadCustomTools reg xs).1 ys).2)) ∧
    (∀ reg : Registry α β, keysNodup reg → namesMatch reg →
      ∀ (d1 d2 : ToolInput α β) (n : String) (r1 r2 : Registry α β),
        d1.name = some n → d2.name = some n →
        registerTool reg d1 = .ok r1 → registerTool r1 d2 = .ok r2 →
        ∃ h2, d2.handler = some h2 ∧
          mapGet r2 n =
            some ⟨n, d2.description.getD "", d2.inputSchema.getD defaultSchema, h2⟩ ∧
          List.countP (fun i => i.name == n) (getTools r2) = 1) := by
  constructor
  · exact loadCustomTools_append
  · intro reg hnd hnm d1 d2 n r1 r2 hn1 hn2 hr1 hr2
    obtain ⟨m1, h1, hm1, hh1, _, hreq1⟩ := registerTool_ok_char reg d1 r1 hr1
    obtain ⟨m2, h2, hm2, hh2, _, hreq2⟩ := registerTool_ok_char r1 d2 r2 hr2
    have hm1n : m1 = n := by
      rw [hn1] at hm1
      exact (Option.some.inj hm1).symm
    have hm2n : m2 = n := by
      rw [hn2] at hm2
      exact (Option.some.inj hm2).symm
    rw [hm1n] at hreq1
    rw [hm2n] at hreq2
    have hnd1 : keysNodup r1 := hreq1 ▸ keysNodup_mapSet reg n _ hnd
    have hnm1 : namesMatch r1 := hreq1 ▸ namesMatch_mapSet reg n _ hnm rfl
    have hnd2 : keysNodup r2 := hreq2 ▸ keysNodup_mapSet r1 n _ hnd1
    have hnm2 : namesMatch r2 := hreq2 ▸ namesMatch_mapSet r1 n _ hnm1 rfl
    have hmem : n ∈ r2.map Prod.fst := hreq2 ▸ self_mem_keys_mapSet r1 n _
    refine ⟨h2, hh2, ?_, countP_getTools_eq_one r2 hnd2 hnm2 n hmem⟩
    rw [hreq2]
    exact mapGet_mapSet_self r1 n _

/-- Second registration under the name `alpha`, with a different description
and handler. -/
def alphaInput2 : ToolInput Nat Nat :=
  ⟨some "alpha", some "snd", none, some natHandlerFail⟩

/-- Registry after registering `goodInput` on the empty registry. -/
def regAlpha1 : Registry Nat Nat := [("alpha", alphaTool)]

/-- Registry after re-registering `alpha` via `alphaInput2`. -/
def regAlpha2 : Registry Nat Nat :=
  [("alpha", ⟨"alpha", "snd", defaultSchema, natHandlerFail⟩)]

/-- C5 witness: registering `alpha` twice on the empty registry leaves one
entry for `alpha`, matching the second descriptor. -/
theorem loadOrder_and_lastWins_witness :
    ∃ h2, alphaInput2.handler = some h2 ∧
      mapGet regAlpha2 "alpha" =
        some ⟨"alpha", alphaInput2.description.getD "",
          alphaInput2.inputSchema.getD defaultSchema, h2⟩ ∧
      List.countP (fun i => i.name == "alpha") (getTools regAlpha2) = 1 :=
  (loadOrder_and_lastWins).2 ([] : Registry Nat Nat) (by simp [keysNodup])
    (by intro p hp; cases hp) goodInput alphaInput2 "alpha" regAlpha1 regAlpha2
    rfl rfl rfl rfl


/-- Failed registration when the descriptor is falsy in name or handler. -/
theorem registerTool_error_of_falsy {α β : Type} (reg : Registry α β)
    (t : ToolInput α β) (h : (nameFalsy t || handlerFalsy t) = true) :
    registerTool reg t = .error "Tool must have a name and handler" := by
  unfold registerTool
  simp [h]

/-- Module file that imports successfully but exposes no default export. -/
def noDefaultFile : ModuleFile Nat Nat := ⟨"a.js", .ok none⟩

/-- C6 counterexample: a `.js` file that imports fine but exposes no
default-shaped descriptor is skipped with NO recorded diagnostic (the claim
says a diagnostic is recorded): loading it alone from the empty registry
registers nothing and leaves the diagnostic log empty. -/
theorem loader_silent_skip_counterexample :
    loadCustomTools ([] : Registry Nat Nat) [noDefaultFile] =
      (([] : Registry Nat Nat), ([] : List String)) ∧
    noDefaultFile.imported = .ok none := by
  constructor
  · simp [loadCustomTools, loadStep, noDefaultFile, strEndsWith]
  · rfl

/-- C6 (amended): each candidate file is attempted independently.  A file
whose import throws, or whose default export lacks a name or handler, is
skipped with one recorded diagnostic; a file with no default export is
skipped silently; a well-formed file is registered with a success
diagnostic.  In every case the remaining files are processed exactly as they
would be on their own, so one malformed module never aborts the pass. -/
theorem loader_isolation_amended {α β : Type} :
    (∀ (reg : Registry α β) (f : ModuleFile α β) (rest : List (ModuleFile α β))
       (msg : String), f.imported = .error msg → strEndsWith f.file ".js" = true →
      loadCustomTools reg (f :: rest) =
        ((loadCustomTools reg rest).1,
         ("Failed to load custom tool " ++ f.file ++ ": " ++ msg) ::
           (loadCustomTools reg rest).2)) ∧
    (∀ (reg : Registry α β) (f : ModuleFile α β) (rest : List (ModuleFile α β))
       (t : ToolInput α β), f.imported = .ok (some t) →
      (nameFalsy t || handlerFalsy t) = true → strEndsWith f.file ".js" = true →
      loadCustomTools reg (f :: rest) =
        ((loadCustomTools reg rest).1,
         ("Failed to load custom tool " ++ f.file ++
            ": Tool must have a name and handler") ::
           (loadCustomTools reg rest).2)) ∧
    (∀ (reg : Registry α β) (f : ModuleFile α β) (rest : List (ModuleFile α β)),
      f.imported = .ok none → strEndsWith f.file ".js" = true →
      loadCustomTools reg (f :: rest) = loadCustomTools reg rest) ∧
    (∀ (reg reg1 : Registry α β) (f : ModuleFile α β) (rest : List (ModuleFile α β))
       (t : ToolInput α β), f.imported = .ok (some t) → registerTool reg t = .ok reg1 →
      strEndsWith f.file ".js" = true →
      loadCustomTools reg (f :: rest) =
        ((loadCustomTools reg1 rest).1,
         ("Loaded custom tool from: " ++ f.file) :: (loadCustomTools reg1 rest).2)) := by
  refine ⟨?_, ?_, ?_, ?_⟩
  · intro reg f rest msg himp hjs
    unfold loadCustomTools
    rw [List.filter_cons_of_pos (by simp [hjs]), List.foldl_cons]
    have hstep : loadStep (reg, ([] : List String)) f =
        (reg, ["Failed to load custom tool " ++ f.file ++ ": " ++ msg]) := by
      simp [loadStep, himp]
    rw [hstep]
    obtain ⟨h1, h2⟩ := foldl_loadStep_shift
      (rest.filter fun g => strEndsWith g.file ".js") reg
      ["Failed to load custom tool " ++ f.file ++ ": " ++ msg]
    exact Prod.ext h1 (by rw [h2]; rfl)
  · intro reg f rest t himp hfalsy hjs
    unfold loadCustomTools
    rw [List.filter_cons_of_pos (by simp [hjs]), List.foldl_cons]
    have hstep : loadStep (reg, ([] : List String)) f =
        (reg, ["Failed to load custom tool " ++ f.file ++
          ": Tool must have a name and handler"]) := by
      simp [loadStep, himp, registerTool_error_of_falsy reg t hfalsy]
      have hlit : ((": " : String) ++ "Tool must have a name and handler") =
          ": Tool must have a name and handler" := by decide
      rw [String.append_assoc, hlit]
    rw [hstep]
    obtain ⟨h1, h2⟩ := foldl_loadStep_shift
      (rest.filter fun g => strEndsWith g.file ".js") reg
      ["Failed to load custom tool " ++ f.file ++ ": Tool must have a name and handler"]
    exact Prod.ext h1 (by rw [h2]; rfl)
  · intro reg f rest himp hjs
    unfold loadCustomTools
    rw [List.filter_cons_of_pos (by simp [hjs]), List.foldl_cons]
    have hstep : loadStep (reg, ([] : List String)) f = (reg, []) := by
      simp [loadStep, himp]
    rw [hstep]
  · intro reg reg1 f rest t himp hreg hjs
    unfold loadCustomTools
    rw [List.filter_cons_of_pos (by simp [hjs]), List.foldl_cons]
    have hstep : loadStep (reg, ([] : List String)) f =
        (reg1, ["Loaded custom tool from: " ++ f.file]) := by
      simp [loadStep, himp, hreg]
    rw [hstep]
    obtain ⟨h1, h2⟩ := foldl_loadStep_shift
      (rest.filter fun g => strEndsWith g.file ".js") reg1
      ["Loaded custom tool from: " ++ f.file]
    exact Prod.ext h1 (by rw [h2]; rfl)

/-- Module file whose dynamic import throws. -/
def badImportFile : ModuleFile Nat Nat := ⟨"bad.js", .error "SyntaxError"⟩

/-- Module file exposing the well-formed `goodInput` as default export. -/
def goodFile : ModuleFile Nat Nat := ⟨"good.js", .ok (some goodInput)⟩

/-- C6 witness (the spec's own example): one malformed and one well-formed
module; exactly the well-formed one is registered, exactly one failure
diagnostic is recorded for the malformed one, and the pass completes. -/
theorem loader_isolation_amended_witness :
    loadCustomTools ([] : Registry Nat Nat) [badImportFile, goodFile] =
      (regAlpha1,
       ["Failed to load custom tool bad.js: SyntaxError",
        "Loaded custom tool from: good.js"]) := by
  have hbad := (loader_isolation_amended (α := Nat) (β := Nat)).1
    [] badImportFile [goodFile] "SyntaxError" rfl (by decide)
  have hgood := (loader_isolation_amended (α := Nat) (β := Nat)).2.2.2
    [] regAlpha1 goodFile [] goodInput rfl rfl (by decide)
  rw [hbad, hgood]
  rfl


/-! ### Injectivity of the decimal id (`Date.now().toString()`) -/

/-- Numeric value of a decimal digit character. -/
def digitVal (c : Char) : Nat := c.toNat - 48

theorem digitVal_digitChar (m : Nat) (h : m < 10) : digitVal (Nat.digitChar m) = m := by
  interval_cases m <;> decide

/-- Decimal digit characters of `n`, most significant first, as produced by
`Nat.toDigitsCore` with sufficient fuel. -/
def decDigits (n : Nat) : List Char :=
  if h : n < 10 then [Nat.digitChar (n % 10)]
  else decDigits (n / 10) ++ [Nat.digitChar (n % 10)]
decreasing_by exact Nat.div_lt_self (by omega) (by omega)

theorem toDigitsCore_eq_decDigits :
    ∀ (n fuel : Nat) (ds : List Char), n < fuel →
      Nat.toDigitsCore 10 fuel n ds = decDigits n ++ ds := by
  intro n
  induction n using Nat.strong_induction_on with
  | _ n ih =>
    intro fuel ds hfuel
    match fuel, hfuel with
    | f + 1, _ =>
      conv_lhs => rw [Nat.toDigitsCore]
      by_cases h : n / 10 = 0
      · have h10 : n < 10 := by omega
        rw [if_pos h, decDigits]
        rw [dif_pos h10]
        rfl
      · have h10 : ¬n < 10 := by omega
        rw [if_neg h]
        have hlt : n / 10 < n := Nat.div_lt_self (by omega) (by omega)
        have hf : n / 10 < f := by omega
        rw [ih (n / 10) hlt f _ hf]
        conv_rhs => rw [decDigits]
        rw [dif_neg h10, List.append_assoc]
        rfl

theorem foldl_decDigits (n : Nat) : ∀ a : Nat,
    (decDigits n).foldl (fun acc c => acc * 10 + digitVal c) a =
      a * 10 ^ (decDigits n).length + n := by
  induction n using Nat.strong_induction_on with
  | _ n ih =>
    intro a
    by_cases h : n < 10
    · rw [decDigits, dif_pos h]
      simp [Nat.mod_eq_of_lt h, digitVal_digitChar n h]
    · conv_lhs => rw [decDigits, dif_neg h]
      conv_rhs => rw [decDigits, dif_neg h]
      rw [List.foldl_append]
      rw [ih (n / 10) (Nat.div_lt_self (by omega) (by omega)) a]
      have hmod : 10 * (n / 10) + n % 10 = n := Nat.div_add_mod n 10
      simp only [List.foldl, digitVal_digitChar (n % 10) (by omega),
        List.length_append, List.length_singleton]
      calc (a * 10 ^ (decDigits (n / 10)).length + n / 10) * 10 + n % 10
          = a * (10 ^ (decDigits (n / 10)).length * 10) + (10 * (n / 10) + n % 10) := by
            ring
        _ = a * 10 ^ ((decDigits (n / 10)).length + 1) + n := by rw [hmod, pow_succ]

theorem evalDec_decDigits (n : Nat) :
    (decDigits n).foldl (fun acc c => acc * 10 + digitVal c) 0 = n := by
  have := foldl_decDigits n 0
  simpa using this

/-- The decimal representation `Date.now().toString()` is injective: distinct
clock readings give distinct id strings. -/
theorem natRepr_inj (a b : Nat) (h : Nat.repr a = Nat.repr b) : a = b := by
  have ha : Nat.repr a = (decDigits a).asString := by
    show (Nat.toDigitsCore 10 (a + 1) a []).asString = _
    rw [toDigitsCore_eq_decDigits a (a + 1) [] (Nat.lt_succ_self a)]
    simp
  have hb : Nat.repr b = (decDigits b).asString := by
    show (Nat.toDigitsCore 10 (b + 1) b []).asString = _
    rw [toDigitsCore_eq_decDigits b (b + 1) [] (Nat.lt_succ_self b)]
    simp
  rw [ha, hb] at h
  have hl : decDigits a = decDigits b := congrArg String.data h
  rw [← evalDec_decDigits a, ← evalDec_decDigits b, hl]

/-- Items of the store as the handlers read them (missing file is the empty
collection). -/
def storeItems (s : Store) : List Item := (s.getD ⟨[]⟩).items

/-- C7 counterexample: two successive `add_item` calls within the same
millisecond (`Date.now()` reads 0 both times) produce items with EQUAL ids,
refuting "any two successive add_item calls produce items with distinct
ids". -/
theorem addItem_same_clock_counterexample :
    (addItemHandler 0 "t" ((addItemHandler 0 "t" (none : Store)
          ⟨"A", "d", none⟩).1) ⟨"B", "e", none⟩).2.item.id =
      (addItemHandler 0 "t" (none : Store) ⟨"A", "d", none⟩).2.item.id := rfl

/-- C7 (amended): `add_item` appends exactly one record, whose id is the
decimal millisecond-clock string and whose `createdAt` is the ISO timestamp,
and returns the `success`/`item`/`message` envelope; two successive calls
produce distinct ids whenever their millisecond clock readings differ (they
collide when the clock reading is equal). -/
theorem addItem_appends_and_ids :
    (∀ (now : Nat) (isoNow : String) (store : Store) (args : AddArgs),
      (addItemHandler now isoNow store args).1 =
        some ⟨storeItems store ++
          [⟨Nat.repr now, args.name, args.description,
            args.metadata.getD .empty, isoNow⟩]⟩ ∧
      (addItemHandler now isoNow store args).2 =
        ⟨true,
         ⟨Nat.repr now, args.name, args.description,
          args.metadata.getD .empty, isoNow⟩,
         "Item \x27" ++ args.name ++ "\x27 added successfully"⟩) ∧
    (∀ (now1 now2 : Nat) (iso1 iso2 : String) (store : Store)
       (args1 args2 : AddArgs), ¬now1 = now2 →
      (addItemHandler now2 iso2 (addItemHandler now1 iso1 store args1).1
          args2).2.item.id ≠
        (addItemHandler now1 iso1 store args1).2.item.id) := by
  constructor
  · intro now isoNow store args
    cases store with
    | none => exact ⟨rfl, rfl⟩
    | some d => exact ⟨rfl, rfl⟩
  · intro now1 now2 iso1 iso2 store args1 args2 hne
    simp only [addItemHandler]
    intro h
    exact hne ((natRepr_inj now2 now1 h).symm)

/-- C7 witness: adding at clock 5 then at clock 6 appends the records and
the two ids differ. -/
theorem addItem_appends_and_ids_witness :
    ((addItemHandler 5 "t5" (none : Store) ⟨"A", "d", none⟩).1 =
      some ⟨storeItems (none : Store) ++
        [⟨Nat.repr 5, "A", "d", MetaVal.empty, "t5"⟩]⟩) ∧
    (addItemHandler 6 "t6" (addItemHandler 5 "t5" (none : Store)
        ⟨"A", "d", none⟩).1 ⟨"B", "e", none⟩).2.item.id ≠
      (addItemHandler 5 "t5" (none : Store) ⟨"A", "d", none⟩).2.item.id :=
  ⟨(addItem_appends_and_ids.1 5 "t5" none ⟨"A", "d", none⟩).1,
   addItem_appends_and_ids.2 5 6 "t5" "t6" none ⟨"A", "d", none⟩ ⟨"B", "e", none⟩
     (by decide)⟩


/-- Sample stored item. -/
def itemA : Item := ⟨"1", "A", "d", .empty, "t"⟩

/-- C8: `remove_item` with an id matching no record fails with a
not-found-class error and performs no write (an error result never carries a
new store, so the stored collection is unchanged); when some record matches,
exactly the matching records are deleted (a record survives iff its id
differs). -/
theorem removeItem_notFound_and_exact :
    (∀ args : RemoveArgs,
      removeItemHandler (none : Store) args = .error "No items found") ∧
    (∀ (doc : ItemsDoc) (args : RemoveArgs),
      (∀ item ∈ doc.items, ¬item.id = args.id) →
      removeItemHandler (some doc) args =
        .error ("Item with ID \x27" ++ args.id ++ "\x27 not found")) ∧
    (∀ (doc : ItemsDoc) (args : RemoveArgs),
      (∃ item ∈ doc.items, item.id = args.id) →
      removeItemHandler (some doc) args =
        .ok (some ⟨doc.items.filter (fun item => !(item.id == args.id))⟩,
          ⟨true, "Item \x27" ++ args.id ++ "\x27 removed successfully"⟩) ∧
      ∀ item, item ∈ doc.items.filter (fun itm => !(itm.id == args.id)) ↔
        (item ∈ doc.items ∧ ¬item.id = args.id)) := by
  refine ⟨fun args => rfl, ?_, ?_⟩
  · intro doc args hnone
    have hfeq : doc.items.filter (fun item => !(item.id == args.id)) = doc.items := by
      rw [List.filter_eq_self]
      intro a ha
      simp [hnone a ha]
    simp only [removeItemHandler]
    rw [hfeq]
    simp
  · intro doc args hex
    obtain ⟨x, hx, hxid⟩ := hex
    have hlt : (doc.items.filter (fun item => !(item.id == args.id))).length <
        doc.items.length := by
      rcases Nat.lt_or_ge (doc.items.filter
          (fun item => !(item.id == args.id))).length doc.items.length with h | h
      · exact h
      · exfalso
        have hle := List.length_filter_le (fun item => !(item.id == args.id)) doc.items
        have heq : (doc.items.filter (fun item => !(item.id == args.id))).length =
            doc.items.length := Nat.le_antisymm hle h
        have hall := List.filter_length_eq_length.mp heq
        have := hall x hx
        simp [hxid] at this
    constructor
    · simp only [removeItemHandler]
      rw [if_neg (Nat.ne_of_lt hlt)]
    · intro item
      constructor
      · intro hmem
        have := List.mem_filter.mp hmem
        refine ⟨this.1, ?_⟩
        have hb := this.2
        simpa using hb
      · intro hmem
        apply List.mem_filter.mpr
        refine ⟨hmem.1, ?_⟩
        simpa using hmem.2

/-- C8 witness: on the one-item store, removing id 2 fails with the
not-found error, and removing id 1 deletes exactly the matching record. -/
theorem removeItem_notFound_and_exact_witness :
    removeItemHandler (some ⟨[itemA]⟩) ⟨"2"⟩ =
      .error ("Item with ID \x27" ++ "2" ++ "\x27 not found") ∧
    removeItemHandler (some ⟨[itemA]⟩) ⟨"1"⟩ =
      .ok (some ⟨[]⟩,
        ⟨true, "Item \x27" ++ "1" ++ "\x27 removed successfully"⟩) :=
  ⟨removeItem_notFound_and_exact.2.1 ⟨[itemA]⟩ ⟨"2"⟩ (by decide),
   (removeItem_notFound_and_exact.2.2 ⟨[itemA]⟩ ⟨"1"⟩ ⟨itemA, by decide, by decide⟩).1⟩

/-- C9: `list_items` treats limit 0 and the empty filter string as falsy:
with them the result is identical to passing no filter and no limit, namely
all items with the full count; in general any falsy filter/limit pair has no
effect on the result. -/
theorem listItems_falsy_no_effect :
    (∀ (rt : String → String → Bool) (store : Store) (f : Option String)
       (l : Option Nat), filterTruthy f = false → limitTruthy l = false →
      listItemsHandler rt store ⟨f, l⟩ = listItemsHandler rt store ⟨none, none⟩) ∧
    (∀ (rt : String → String → Bool) (doc : ItemsDoc),
      listItemsHandler rt (some doc) ⟨some "", some 0⟩ =
        ⟨doc.items, doc.items.length⟩) ∧
    (∀ rt : String → String → Bool,
      listItemsHandler rt (none : Store) ⟨some "", some 0⟩ = ⟨[], 0⟩) ∧
    (∀ (rt : String → String → Bool) (store : Store) (f : Option String)
       (l : Option Nat), filterTruthy f = false →
      listItemsHandler rt store ⟨f, l⟩ = listItemsHandler rt store ⟨none, l⟩) ∧
    (∀ (rt : String → String → Bool) (store : Store) (f : Option String)
       (l : Option Nat), limitTruthy l = false →
      listItemsHandler rt store ⟨f, l⟩ = listItemsHandler rt store ⟨f, none⟩) := by
  refine ⟨?_, ?_, ?_, ?_, ?_⟩
  · intro rt store f l hf hl
    cases store with
    | none => rfl
    | some d =>
        simp only [listItemsHandler]
        rw [hf, hl]
        simp [filterTruthy, limitTruthy]
  · intro rt doc
    simp [listItemsHandler, filterTruthy, limitTruthy]
  · intro rt
    rfl
  · intro rt store f l hf
    cases store with
    | none => rfl
    | some d =>
        simp only [listItemsHandler]
        rw [hf]
        simp [filterTruthy]
  · intro rt store f l hl
    cases store with
    | none => rfl
    | some d =>
        simp only [listItemsHandler]
        rw [hl]
        simp [limitTruthy]

/-- C9 witness: on a one-item store, filter equal to the empty string and
limit equal to 0 behave exactly like absent filter and limit, returning the
single item with count 1. -/
theorem listItems_falsy_no_effect_witness :
    (listItemsHandler (fun _ _ => true) (some ⟨[itemA]⟩) ⟨some "", some 0⟩ =
      listItemsHandler (fun _ _ => true) (some ⟨[itemA]⟩) ⟨none, none⟩) ∧
    listItemsHandler (fun _ _ => true) (some ⟨[itemA]⟩) ⟨some "", some 0⟩ =
      ⟨[itemA], 1⟩ :=
  ⟨listItems_falsy_no_effect.1 (fun _ _ => true) (some ⟨[itemA]⟩)
      (some "") (some 0) rfl rfl,
   listItems_falsy_no_effect.2.1 (fun _ _ => true) ⟨[itemA]⟩⟩

/-- Every entry reachable after a sequence of registrations is either an
initial entry or the normalization of one of the registered descriptors. -/
theorem applyRegs_mem {α β : Type} :
    ∀ (ds : List (ToolInput α β)) (reg : Registry α β) (p : String × Tool α β),
      p ∈ applyRegs reg ds → p ∈ reg ∨
        ∃ d ∈ ds, ∃ h, d.name = some p.1 ∧ d.handler = some h ∧
          p.2 = ⟨p.1, d.description.getD "", d.inputSchema.getD defaultSchema, h⟩ := by
  intro ds
  induction ds with
  | nil =>
      intro reg p hp
      exact Or.inl hp
  | cons d rest ih =>
      intro reg p hp
      simp only [applyRegs, List.foldl_cons] at hp
      rcases ih _ p hp with hmem | ⟨d1, hd1, hrest⟩
      · cases hreg : registerTool reg d with
        | error e =>
            rw [hreg] at hmem
            exact Or.inl hmem
        | ok r1 =>
            rw [hreg] at hmem
            obtain ⟨n, h, hn, hhand, hne, hr1⟩ := registerTool_ok_char reg d r1 hreg
            rw [hr1] at hmem
            rcases mem_mapSet reg n _ p hmem with h1 | h1
            · exact Or.inl h1
            · subst h1
              exact Or.inr ⟨d, List.mem_cons_self d rest, h, hn, hhand, rfl⟩
      · exact Or.inr ⟨d1, List.mem_cons_of_mem d hd1, hrest⟩

/-- C10: after any sequence of registrations starting from the empty
registry (failures skipped), every registry entry is the normalization of
one of the registered descriptors — its description defaults to the empty
string and its schema to the default object schema when omitted — and the
corresponding `getTools` element carries its name, description, and
inputSchema. -/
theorem registry_entries_normalized {α β : Type} :
    ∀ (ds : List (ToolInput α β)) (p : String × Tool α β),
      p ∈ applyRegs ([] : Registry α β) ds →
      (∃ d ∈ ds, ∃ h, d.name = some p.1 ∧ d.handler = some h ∧
        p.2 = ⟨p.1, d.description.getD "", d.inputSchema.getD defaultSchema, h⟩) ∧
      (⟨p.2.name, p.2.description, p.2.inputSchema⟩ : ToolInfo) ∈
        getTools (applyRegs ([] : Registry α β) ds) := by
  intro ds p hp
  constructor
  · rcases applyRegs_mem ds [] p hp with hmem | hgood
    · cases hmem
    · exact hgood
  · exact List.mem_map_of_mem _ hp

/-- C10 witness: registering the valid `goodInput` and the invalid
`badInput` leaves exactly the normalized `alpha` entry, whose description
and schema come from the descriptor (with the schema defaulted), and
`getTools` exposes it. -/
theorem registry_entries_normalized_witness :
    (∃ d ∈ [goodInput, badInput], ∃ h, d.name = some "alpha" ∧ d.handler = some h ∧
      alphaTool = ⟨"alpha", d.description.getD "", d.inputSchema.getD defaultSchema, h⟩) ∧
    (⟨alphaTool.name, alphaTool.description, alphaTool.inputSchema⟩ : ToolInfo) ∈
      getTools (applyRegs ([] : Registry Nat Nat) [goodInput, badInput]) :=
  registry_entries_normalized [goodInput, badInput] ("alpha", alphaTool)
    (show ("alpha", alphaTool) ∈ ([("alpha", alphaTool)] : Registry Nat Nat) from
      List.mem_singleton.mpr rfl)

end MCP
